import Mathlib

/-!
Verification of the interactive Mandelbrot viewer (src/Fractal/Fractal.cpp).

The program keeps a handful of global variables — zoom, offsetX, offsetY,
maxIterations, isDragging, lastMouseX, lastMouseY — that are mutated by three
GLFW callbacks (scroll, mouse button, cursor position), and a fragment shader
that computes an escape-time iteration count and a color for every pixel.

We embed the globals as a `ProgramState` structure, each callback as a state
transformer, and the fragment shader as a pure function.  All real arithmetic
is embedded over ℚ, the exact arithmetic of the algorithm (the GPU executes
the shader in single precision; the design document treats that reduction as
an accepted accuracy tradeoff, so the properties are stated over the exact
values).  The shader's `while` loop is expressed by structural recursion on
the remaining fuel `maxIterations - iteration`, which is equivalent to the
loop guard `iteration < maxIterations`.
-/

namespace Fractal

/-- The global mutable state of Fractal.cpp: the Mandelbrot view parameters
and the mouse-drag state.  Field names follow the C++ globals.  In C++,
`lastMouseX` and `lastMouseY` have static storage and are zero-initialized. -/
structure ProgramState where
  zoom : ℚ
  offsetX : ℚ
  offsetY : ℚ
  maxIterations : ℕ
  isDragging : Bool
  lastMouseX : ℚ
  lastMouseY : ℚ
  deriving Repr, DecidableEq

/-- GLFW constant: the left mouse button. -/
def GLFW_MOUSE_BUTTON_LEFT : ℤ := 0

/-- GLFW constant: a button-press action. -/
def GLFW_PRESS : ℤ := 1

/-- GLFW constant: a button-release action. -/
def GLFW_RELEASE : ℤ := 0

/-- The initial values of the globals:
`zoom = 200.0`, `offsetX = -0.5`, `offsetY = 0.0`, `maxIterations = 1500`,
`isDragging = false`, `lastMouseX = lastMouseY = 0`. -/
def initialState : ProgramState :=
  { zoom := 200.0, offsetX := -0.5, offsetY := 0.0, maxIterations := 1500,
    isDragging := false, lastMouseX := 0, lastMouseY := 0 }

/-- `scrollCallback(window, xoffset, yoffset)`: zoom in by the factor 1.1 when
`yoffset > 0`, zoom out by the same factor when `yoffset < 0`. -/
def scrollCallback (xoffset yoffset : ℚ) (s : ProgramState) : ProgramState :=
  if 0 < yoffset then { s with zoom := s.zoom * 1.1 }
  else if yoffset < 0 then { s with zoom := s.zoom / 1.1 }
  else s

/-- `mouseButtonCallback(window, button, action, mods)`: on a left-button press
start dragging and snapshot the cursor position (the C++ code reads it with
`glfwGetCursorPos`, modelled here by the `cursorX`, `cursorY` arguments); on a
left-button release stop dragging. -/
def mouseButtonCallback (button action mods : ℤ) (cursorX cursorY : ℚ)
    (s : ProgramState) : ProgramState :=
  if button = GLFW_MOUSE_BUTTON_LEFT then
    if action = GLFW_PRESS then
      { s with isDragging := true, lastMouseX := cursorX, lastMouseY := cursorY }
    else if action = GLFW_RELEASE then
      { s with isDragging := false }
    else s
  else s

/-- `cursorPositionCallback(window, xpos, ypos)`: while dragging, pan by the
cursor delta scaled by `1 / zoom`, with the vertical sign inverted. -/
def cursorPositionCallback (xpos ypos : ℚ) (s : ProgramState) : ProgramState :=
  if s.isDragging then
    let dx := xpos - s.lastMouseX
    let dy := ypos - s.lastMouseY
    { s with lastMouseX := xpos, lastMouseY := ypos,
             offsetX := s.offsetX - dx / s.zoom,
             offsetY := s.offsetY + dy / s.zoom }
  else s

/-- An input event delivered to one of the three registered callbacks. -/
inductive InputEvent where
  | scroll (xoffset yoffset : ℚ)
  | mouseButton (button action mods : ℤ) (cursorX cursorY : ℚ)
  | cursorMove (xpos ypos : ℚ)

/-- Dispatch one input event to its callback. -/
def handleEvent (e : InputEvent) (s : ProgramState) : ProgramState :=
  match e with
  | .scroll x y => scrollCallback x y s
  | .mouseButton b a m cx cy => mouseButtonCallback b a m cx cy s
  | .cursorMove x y => cursorPositionCallback x y s

/-- Apply a sequence of input events in order. -/
def applyEvents (es : List InputEvent) (s : ProgramState) : ProgramState :=
  es.foldl (fun t e => handleEvent e t) s

/-- GLSL `dot(z, z)`: the squared modulus of a 2-vector. -/
def dot2 (v : ℚ × ℚ) : ℚ := v.1 * v.1 + v.2 * v.2

/-- One pass of the shader loop body:
`z = vec2(z.x * z.x - z.y * z.y + c.x, 2.0 * z.x * z.y + c.y)`. -/
def mandelStep (c z : ℚ × ℚ) : ℚ × ℚ :=
  (z.1 * z.1 - z.2 * z.2 + c.1, 2 * z.1 * z.2 + c.2)

/-- The shader loop
`while (dot(z, z) < 4.0 && iteration < u_maxIterations) { z = ...; iteration++; }`,
with `fuel = u_maxIterations - iteration` so that `fuel > 0` is exactly the
guard `iteration < u_maxIterations`.  Returns the final `iteration`. -/
def mandelLoop (c z : ℚ × ℚ) (iteration fuel : ℕ) : ℕ :=
  match fuel with
  | 0 => iteration
  | fuel + 1 =>
    if dot2 z < 4 then mandelLoop c (mandelStep c z) (iteration + 1) fuel
    else iteration

/-- The iteration count computed by the shader for complex parameter `c`:
the loop run from `z = vec2(0.0)`, `iteration = 0`. -/
def iterationCount (c : ℚ × ℚ) (maxIterations : ℕ) : ℕ :=
  mandelLoop c (0, 0) 0 maxIterations

/-- The orbit of the quadratic recurrence started at an arbitrary `z`. -/
def zSeqFrom (c z : ℚ × ℚ) : ℕ → ℚ × ℚ
  | 0 => z
  | k + 1 => mandelStep c (zSeqFrom c z k)

/-- The orbit of the shader's recurrence: `zSeq c k` is the value of `z`
after `k` passes of the loop body, starting from `z = vec2(0.0)`. -/
def zSeq (c : ℚ × ℚ) (k : ℕ) : ℚ × ℚ := zSeqFrom c (0, 0) k

/-- The screen-to-complex mapping of the shader:
`c = (gl_FragCoord.xy - u_resolution * 0.5) / u_zoom + u_offset`. -/
def pixelToComplex (fragCoord resolution : ℚ × ℚ) (zoom : ℚ)
    (offset : ℚ × ℚ) : ℚ × ℚ :=
  ((fragCoord.1 - resolution.1 * 0.5) / zoom + offset.1,
   (fragCoord.2 - resolution.2 * 0.5) / zoom + offset.2)

/-- An RGBA color as written to `fragColor`. -/
structure FragColor where
  r : ℚ
  g : ℚ
  b : ℚ
  a : ℚ
  deriving Repr, DecidableEq

/-- The whole fragment shader `main`: map the pixel to the complex plane, run
the escape loop, normalize `t = iteration / maxIterations`, and emit
`fragColor = vec4(t, t * t, t * 0.5, 1.0)`. -/
def shadePixel (fragCoord resolution : ℚ × ℚ) (offset : ℚ × ℚ) (zoom : ℚ)
    (maxIterations : ℕ) : FragColor :=
  let c := pixelToComplex fragCoord resolution zoom offset
  let iteration := iterationCount c maxIterations
  let t : ℚ := (iteration : ℚ) / (maxIterations : ℚ)
  ⟨t, t * t, t * 0.5, 1.0⟩

/-! ### Lemmas about the escape loop -/

theorem mandelLoop_le (c : ℚ × ℚ) :
    ∀ (fuel : ℕ) (z : ℚ × ℚ) (i : ℕ), mandelLoop c z i fuel ≤ i + fuel := by
  intro fuel
  induction fuel with
  | zero => intro z i; simp [mandelLoop]
  | succ f ih =>
    intro z i
    simp only [mandelLoop]
    split
    · exact le_trans (ih _ _) (by omega)
    · omega

theorem mandelLoop_shift (c : ℚ × ℚ) :
    ∀ (fuel : ℕ) (z : ℚ × ℚ) (i : ℕ),
      mandelLoop c z i fuel = i + mandelLoop c z 0 fuel := by
  intro fuel
  induction fuel with
  | zero => intro z i; simp [mandelLoop]
  | succ f ih =>
    intro z i
    simp only [mandelLoop]
    split
    · rw [ih (mandelStep c z) (i + 1), ih (mandelStep c z) 1]
      omega
    · omega

/-- Unfolding equation for `mandelLoop` with `iteration = 0`. -/
theorem mandelLoop_zero_succ (c z : ℚ × ℚ) (f : ℕ) :
    mandelLoop c z 0 (f + 1) =
      if dot2 z < 4 then mandelLoop c (mandelStep c z) 0 f + 1 else 0 := by
  simp only [mandelLoop]
  split
  · rw [mandelLoop_shift c f (mandelStep c z) 1]; omega
  · rfl

/-- Shifting the orbit by one step. -/
theorem zSeqFrom_succ_shift (c z : ℚ × ℚ) :
    ∀ k, zSeqFrom c z (k + 1) = zSeqFrom c (mandelStep c z) k := by
  intro k
  induction k with
  | zero => rfl
  | succ k ih => simp only [zSeqFrom] at ih ⊢; rw [ih]

/-- Every index strictly below the final iteration count is a pass the loop
actually took, so the orbit value there still satisfied the bailout test. -/
theorem mandelLoop_orbit_lt (c : ℚ × ℚ) :
    ∀ (fuel : ℕ) (z : ℚ × ℚ),
      ∀ j < mandelLoop c z 0 fuel, dot2 (zSeqFrom c z j) < 4 := by
  intro fuel
  induction fuel with
  | zero => intro z j hj; simp [mandelLoop] at hj
  | succ f ih =>
    intro z j hj
    rw [mandelLoop_zero_succ] at hj
    by_cases h : dot2 z < 4
    · rw [if_pos h] at hj
      match j with
      | 0 => exact h
      | j + 1 =>
        rw [zSeqFrom_succ_shift]
        exact ih (mandelStep c z) j (by omega)
    · rw [if_neg h] at hj; omega

/-- When the loop stops before exhausting the iteration budget, it is the
bailout test that failed at the final orbit value. -/
theorem mandelLoop_orbit_escape (c : ℚ × ℚ) :
    ∀ (fuel : ℕ) (z : ℚ × ℚ),
      mandelLoop c z 0 fuel < fuel →
        ¬ dot2 (zSeqFrom c z (mandelLoop c z 0 fuel)) < 4 := by
  intro fuel
  induction fuel with
  | zero => intro z h; omega
  | succ f ih =>
    intro z h
    rw [mandelLoop_zero_succ] at h ⊢
    by_cases hz : dot2 z < 4
    · rw [if_pos hz] at h ⊢
      rw [zSeqFrom_succ_shift]
      exact ih (mandelStep c z) (by omega)
    · rw [if_neg hz]
      exact hz

/-- If the whole orbit up to the budget stays below the bailout threshold, the
loop runs the full budget. -/
theorem mandelLoop_full (c : ℚ × ℚ) :
    ∀ (fuel : ℕ) (z : ℚ × ℚ),
      (∀ j < fuel, dot2 (zSeqFrom c z j) < 4) → mandelLoop c z 0 fuel = fuel := by
  intro fuel
  induction fuel with
  | zero => intro z _; rfl
  | succ f ih =>
    intro z h
    have h0 : dot2 z < 4 := h 0 (by omega)
    rw [mandelLoop_zero_succ, if_pos h0]
    rw [ih (mandelStep c z) (fun j hj => by
      rw [← zSeqFrom_succ_shift]; exact h (j + 1) (by omega))]

/-! ### View-State Controller claims -/

/-- C2: for every scroll event, a strictly positive vertical direction
multiplies `zoom` by 1.1 and a strictly negative one divides it by 1.1,
exactly and with no bound enforced; every other field of the program state is
left unchanged by the scroll handler. -/
theorem scrollCallback_zoom_spec (x y : ℚ) (s : ProgramState) :
    (0 < y → (scrollCallback x y s).zoom = s.zoom * 1.1) ∧
    (y < 0 → (scrollCallback x y s).zoom = s.zoom / 1.1) ∧
    (scrollCallback x y s).offsetX = s.offsetX ∧
    (scrollCallback x y s).offsetY = s.offsetY ∧
    (scrollCallback x y s).maxIterations = s.maxIterations ∧
    (scrollCallback x y s).isDragging = s.isDragging ∧
    (scrollCallback x y s).lastMouseX = s.lastMouseX ∧
    (scrollCallback x y s).lastMouseY = s.lastMouseY := by
  refine ⟨fun h => ?_, fun h => ?_, ?_, ?_, ?_, ?_, ?_, ?_⟩ <;>
    simp only [scrollCallback] <;>
    split <;>
    (try split) <;>
    first
      | rfl
      | (exfalso; linarith)

/-- Witness for C2 at the initial state, one scroll up and one scroll down. -/
theorem scrollCallback_zoom_spec_witness :
    (0 < (1 : ℚ) ∧
      (scrollCallback 0 1 initialState).zoom = initialState.zoom * 1.1) ∧
    ((-1 : ℚ) < 0 ∧
      (scrollCallback 0 (-1) initialState).zoom = initialState.zoom / 1.1) :=
  ⟨⟨by norm_num, (scrollCallback_zoom_spec 0 1 initialState).1 (by norm_num)⟩,
   ⟨by norm_num, (scrollCallback_zoom_spec 0 (-1) initialState).2.1 (by norm_num)⟩⟩

/-- C3: while dragging, a cursor-move event stores the new cursor position in
`lastMouseX`/`lastMouseY` and pans by the cursor delta over `zoom`, subtracting
on the x axis and adding on the y axis; consequently, at positive zoom,
`offsetX` strictly decreases under a positive horizontal delta and `offsetY`
strictly increases under a positive vertical delta. -/
theorem cursorPositionCallback_drag_spec (x y : ℚ) (s : ProgramState)
    (h : s.isDragging = true) :
    cursorPositionCallback x y s =
      { s with lastMouseX := x, lastMouseY := y,
               offsetX := s.offsetX - (x - s.lastMouseX) / s.zoom,
               offsetY := s.offsetY + (y - s.lastMouseY) / s.zoom } ∧
    (0 < s.zoom → s.lastMouseX < x →
      (cursorPositionCallback x y s).offsetX < s.offsetX) ∧
    (0 < s.zoom → s.lastMouseY < y →
      s.offsetY < (cursorPositionCallback x y s).offsetY) := by
  have heq : cursorPositionCallback x y s =
      { s with lastMouseX := x, lastMouseY := y,
               offsetX := s.offsetX - (x - s.lastMouseX) / s.zoom,
               offsetY := s.offsetY + (y - s.lastMouseY) / s.zoom } := by
    simp only [cursorPositionCallback, h, if_true]
  refine ⟨heq, fun hz hx => ?_, fun hz hy => ?_⟩
  · rw [heq]
    show s.offsetX - (x - s.lastMouseX) / s.zoom < s.offsetX
    have hpos : 0 < (x - s.lastMouseX) / s.zoom := div_pos (by linarith) hz
    linarith
  · rw [heq]
    show s.offsetY < s.offsetY + (y - s.lastMouseY) / s.zoom
    have hpos : 0 < (y - s.lastMouseY) / s.zoom := div_pos (by linarith) hz
    linarith

/-- Witness for C3: dragging from the zero-initialized cursor to (3, 4) at the
initial view moves `offsetX` down and `offsetY` up. -/
theorem cursorPositionCallback_drag_spec_witness :
    ({ initialState with isDragging := true } : ProgramState).isDragging = true ∧
    (cursorPositionCallback 3 4 { initialState with isDragging := true }).offsetX <
      ({ initialState with isDragging := true } : ProgramState).offsetX ∧
    ({ initialState with isDragging := true } : ProgramState).offsetY <
      (cursorPositionCallback 3 4 { initialState with isDragging := true }).offsetY :=
  ⟨rfl,
   (cursorPositionCallback_drag_spec 3 4 _ rfl).2.1
     (by norm_num [initialState]) (by norm_num [initialState]),
   (cursorPositionCallback_drag_spec 3 4 _ rfl).2.2
     (by norm_num [initialState]) (by norm_num [initialState])⟩

/-- C8: when `isDragging` is already false, a button-release event (for any
button) and a cursor-move event both leave the entire program state unchanged. -/
theorem release_and_move_idempotent (button mods : ℤ) (x y : ℚ)
    (s : ProgramState) (h : s.isDragging = false) :
    mouseButtonCallback button GLFW_RELEASE mods x y s = s ∧
    cursorPositionCallback x y s = s := by
  obtain ⟨z, ox, oy, mi, d, lx, ly⟩ := s
  simp only at h
  subst h
  constructor
  · by_cases hb : button = GLFW_MOUSE_BUTTON_LEFT
    · simp [mouseButtonCallback, hb, GLFW_PRESS, GLFW_RELEASE,
        GLFW_MOUSE_BUTTON_LEFT]
    · simp [mouseButtonCallback, hb]
  · simp [cursorPositionCallback]

/-- Witness for C8 at the initial state, which starts with dragging off. -/
theorem release_and_move_idempotent_witness :
    initialState.isDragging = false ∧
    mouseButtonCallback 0 GLFW_RELEASE 0 5 6 initialState = initialState ∧
    cursorPositionCallback 5 6 initialState = initialState :=
  ⟨rfl,
   (release_and_move_idempotent 0 0 5 6 initialState rfl).1,
   (release_and_move_idempotent 0 0 5 6 initialState rfl).2⟩

/-- C10: a scroll event whose vertical direction is exactly zero is a no-op on
the whole program state: the handler only acts on strictly positive or strictly
negative vertical direction values. -/
theorem scrollCallback_zero_noop (x : ℚ) (s : ProgramState) :
    scrollCallback x 0 s = s := by
  simp [scrollCallback]

/-- Any single event preserves strict positivity of `zoom`. -/
theorem handleEvent_zoom_pos (e : InputEvent) (s : ProgramState)
    (h : 0 < s.zoom) : 0 < (handleEvent e s).zoom := by
  cases e with
  | scroll x y =>
    simp only [handleEvent, scrollCallback]
    split
    · show 0 < s.zoom * 1.1
      have h11 : (0 : ℚ) < 1.1 := by norm_num
      exact mul_pos h h11
    · split
      · show 0 < s.zoom / 1.1
        exact div_pos h (by norm_num)
      · exact h
  | mouseButton b a m cx cy =>
    simp only [handleEvent, mouseButtonCallback]
    split
    · split
      · exact h
      · split
        · exact h
        · exact h
    · exact h
  | cursorMove x y =>
    simp only [handleEvent, cursorPositionCallback]
    split
    · exact h
    · exact h

/-- Any event sequence preserves strict positivity of `zoom`. -/
theorem applyEvents_zoom_pos (es : List InputEvent) :
    ∀ s : ProgramState, 0 < s.zoom → 0 < (applyEvents es s).zoom := by
  induction es with
  | nil => intro s h; exact h
  | cons e es ih =>
    intro s h
    exact ih (handleEvent e s) (handleEvent_zoom_pos e s h)

/-- C4: starting from the initial state (zoom = 200), `zoom` stays strictly
positive after every sequence of input events: no input path drives it to a
value ≤ 0, since the handlers only multiply or divide it by the positive
factor 1.1 or leave it alone. -/
theorem zoom_positive_invariant (es : List InputEvent) :
    0 < (applyEvents es initialState).zoom :=
  applyEvents_zoom_pos es initialState (by norm_num [initialState])

/-! ### Evaluator claims -/

/-- C1: for a positive iteration budget, the count computed by the shader loop
is at most `maxIterations`; every pass it took still satisfied the bailout
test `dot(z, z) < 4`; if it stopped early, the bailout test had failed at the
final orbit value; and a point whose whole orbit stays below the threshold
runs the loop to exactly `maxIterations`. -/
theorem iterationCount_loop_spec (c : ℚ × ℚ) (m : ℕ) (h : 0 < m) :
    iterationCount c m ≤ m ∧
    (∀ j < iterationCount c m, dot2 (zSeq c j) < 4) ∧
    (iterationCount c m < m → 4 ≤ dot2 (zSeq c (iterationCount c m))) ∧
    ((∀ j < m, dot2 (zSeq c j) < 4) → iterationCount c m = m) := by
  refine ⟨?_, ?_, ?_, ?_⟩
  · have hle := mandelLoop_le c m (0, 0) 0
    simpa [iterationCount] using hle
  · intro j hj
    exact mandelLoop_orbit_lt c m (0, 0) j hj
  · intro hlt
    exact not_lt.1 (mandelLoop_orbit_escape c m (0, 0) hlt)
  · intro hall
    exact mandelLoop_full c m (0, 0) hall

/-- Witness for C1 at `c = (0, 0)` and budget 3: the orbit sits at the origin
forever, so the loop runs the full budget. -/
theorem iterationCount_loop_spec_witness :
    0 < 3 ∧
    (iterationCount ((0 : ℚ), (0 : ℚ)) 3 ≤ 3 ∧
     (∀ j < iterationCount ((0 : ℚ), (0 : ℚ)) 3,
        dot2 (zSeq ((0 : ℚ), (0 : ℚ)) j) < 4) ∧
     (iterationCount ((0 : ℚ), (0 : ℚ)) 3 < 3 →
        4 ≤ dot2 (zSeq ((0 : ℚ), (0 : ℚ)) (iterationCount ((0 : ℚ), (0 : ℚ)) 3))) ∧
     ((∀ j < 3, dot2 (zSeq ((0 : ℚ), (0 : ℚ)) j) < 4) →
        iterationCount ((0 : ℚ), (0 : ℚ)) 3 = 3)) :=
  ⟨by norm_num, iterationCount_loop_spec ((0 : ℚ), (0 : ℚ)) 3 (by norm_num)⟩

/-- C6: a parameter already at squared modulus ≥ 4 escapes on the very first
pass: the first loop body sets `z = c`, and the bailout test then fails, so
the count is exactly 1 for any budget ≥ 1. -/
theorem iterationCount_far_point (c : ℚ × ℚ) (m : ℕ) (hc : 4 ≤ dot2 c)
    (hm : 1 ≤ m) : iterationCount c m = 1 := by
  obtain ⟨f, rfl⟩ : ∃ f, m = f + 1 := ⟨m - 1, by omega⟩
  unfold iterationCount
  rw [mandelLoop_zero_succ]
  have h0 : dot2 ((0 : ℚ), (0 : ℚ)) < 4 := by norm_num [dot2]
  rw [if_pos h0]
  have hstep : mandelStep c (0, 0) = c := by
    simp [mandelStep]
  rw [hstep]
  cases f with
  | zero => rfl
  | succ g =>
    rw [mandelLoop_zero_succ, if_neg (not_lt.2 hc)]

/-- Witness for C6 at `c = (3, 0)` with budget 5. -/
theorem iterationCount_far_point_witness :
    4 ≤ dot2 ((3 : ℚ), (0 : ℚ)) ∧ 1 ≤ 5 ∧
    iterationCount ((3 : ℚ), (0 : ℚ)) 5 = 1 :=
  ⟨by norm_num [dot2], by norm_num,
   iterationCount_far_point ((3 : ℚ), (0 : ℚ)) 5 (by norm_num [dot2])
     (by norm_num)⟩

/-- Orbit bounds at the default view center `c = (-0.5, 0)`: the orbit stays
on the real axis in the interval [-1/2, 0], so it never escapes. -/
theorem zSeq_center_bounds :
    ∀ k, (zSeq ((-0.5 : ℚ), 0) k).2 = 0 ∧
      -(1 / 2 : ℚ) ≤ (zSeq ((-0.5 : ℚ), 0) k).1 ∧
      (zSeq ((-0.5 : ℚ), 0) k).1 ≤ 0 := by
  intro k
  induction k with
  | zero => exact ⟨rfl, by norm_num [zSeq, zSeqFrom], le_refl 0⟩
  | succ k ih =>
    obtain ⟨hy, hlo, hhi⟩ := ih
    have hstep : zSeq ((-0.5 : ℚ), 0) (k + 1) =
        mandelStep ((-0.5 : ℚ), 0) (zSeq ((-0.5 : ℚ), 0) k) := rfl
    rw [hstep]
    simp only [mandelStep, hy]
    refine ⟨by ring, ?_, ?_⟩
    · have hsq : 0 ≤ (zSeq ((-0.5 : ℚ), 0) k).1 * (zSeq ((-0.5 : ℚ), 0) k).1 :=
        mul_self_nonneg _
      norm_num
      linarith
    · have hp : 0 ≤ (-(zSeq ((-0.5 : ℚ), 0) k).1) *
          ((zSeq ((-0.5 : ℚ), 0) k).1 + 1 / 2) :=
        mul_nonneg (by linarith) (by linarith)
      norm_num
      nlinarith [hp]

/-- C7: the screen-to-complex mapping sends the exact image center `(W/2, H/2)`
to `offset` for every resolution, zoom and offset; in the default view
(zoom = 200, offset = (-0.5, 0), maxIterations = 1500) at resolution 800×800,
pixel (400, 400) maps to `c = (-0.5, 0)`, and that point runs the escape loop
to the full budget of 1500 iterations. -/
theorem center_pixel_spec :
    (∀ (W H zoom ox oy : ℚ),
        pixelToComplex (W * 0.5, H * 0.5) (W, H) zoom (ox, oy) = (ox, oy)) ∧
    pixelToComplex (400, 400) (800, 800) initialState.zoom
        (initialState.offsetX, initialState.offsetY) = (-0.5, 0) ∧
    initialState.maxIterations = 1500 ∧
    iterationCount ((-0.5 : ℚ), 0) initialState.maxIterations =
      initialState.maxIterations := by
  refine ⟨?_, ?_, rfl, ?_⟩
  · intro W H zoom ox oy
    simp [pixelToComplex]
  · simp [pixelToComplex, initialState]
    norm_num
  · have horbit : ∀ j < 1500, dot2 (zSeq ((-0.5 : ℚ), 0) j) < 4 := by
      intro j _
      obtain ⟨hy, hlo, hhi⟩ := zSeq_center_bounds j
      simp only [dot2, hy]
      nlinarith [hlo, hhi]
    exact mandelLoop_full ((-0.5 : ℚ), 0) 1500 (0, 0) horbit

/-- C5: for a positive budget, the shader's output is exactly
`vec4(t, t*t, t*0.5, 1.0)` with `t = iteration / maxIterations`, `t` lies in
[0, 1], and a pixel whose loop runs the full budget gets `t = 1` and color
`(1, 1, 0.5, 1)`. -/
theorem shadePixel_color_spec (fragCoord resolution offset : ℚ × ℚ)
    (zoom : ℚ) (m : ℕ) (hm : 0 < m) :
    shadePixel fragCoord resolution offset zoom m =
      ⟨(iterationCount (pixelToComplex fragCoord resolution zoom offset) m : ℚ) /
          (m : ℚ),
        ((iterationCount (pixelToComplex fragCoord resolution zoom offset) m : ℚ) /
            (m : ℚ)) *
          ((iterationCount (pixelToComplex fragCoord resolution zoom offset) m : ℚ) /
            (m : ℚ)),
        ((iterationCount (pixelToComplex fragCoord resolution zoom offset) m : ℚ) /
            (m : ℚ)) * 0.5,
        1.0⟩ ∧
    0 ≤ (iterationCount (pixelToComplex fragCoord resolution zoom offset) m : ℚ) /
        (m : ℚ) ∧
    (iterationCount (pixelToComplex fragCoord resolution zoom offset) m : ℚ) /
        (m : ℚ) ≤ 1 ∧
    (iterationCount (pixelToComplex fragCoord resolution zoom offset) m = m →
      shadePixel fragCoord resolution offset zoom m = ⟨1, 1, 0.5, 1⟩) := by
  have hm' : (0 : ℚ) < (m : ℚ) := by exact_mod_cast hm
  refine ⟨rfl, ?_, ?_, ?_⟩
  · exact div_nonneg (Nat.cast_nonneg _) (le_of_lt hm')
  · rw [div_le_one hm']
    have hle := mandelLoop_le (pixelToComplex fragCoord resolution zoom offset)
      m (0, 0) 0
    have hle' : iterationCount (pixelToComplex fragCoord resolution zoom offset)
        m ≤ m := by simpa [iterationCount] using hle
    exact_mod_cast hle'
  · intro he
    simp only [shadePixel, he]
    rw [div_self (ne_of_gt hm')]
    norm_num

/-- Witness for C5 at the origin view with budget 2. -/
theorem shadePixel_color_spec_witness :
    0 < 2 ∧
    (shadePixel ((0 : ℚ), (0 : ℚ)) (0, 0) (0, 0) 1 2 =
      ⟨(iterationCount (pixelToComplex (0, 0) (0, 0) 1 (0, 0)) 2 : ℚ) / (2 : ℚ),
        ((iterationCount (pixelToComplex (0, 0) (0, 0) 1 (0, 0)) 2 : ℚ) / (2 : ℚ)) *
          ((iterationCount (pixelToComplex (0, 0) (0, 0) 1 (0, 0)) 2 : ℚ) / (2 : ℚ)),
        ((iterationCount (pixelToComplex (0, 0) (0, 0) 1 (0, 0)) 2 : ℚ) / (2 : ℚ)) * 0.5,
        1.0⟩ ∧
     0 ≤ (iterationCount (pixelToComplex (0, 0) (0, 0) 1 (0, 0)) 2 : ℚ) / (2 : ℚ) ∧
     (iterationCount (pixelToComplex (0, 0) (0, 0) 1 (0, 0)) 2 : ℚ) / (2 : ℚ) ≤ 1 ∧
     (iterationCount (pixelToComplex (0, 0) (0, 0) 1 (0, 0)) 2 = 2 →
       shadePixel ((0 : ℚ), (0 : ℚ)) (0, 0) (0, 0) 1 2 = ⟨1, 1, 0.5, 1⟩)) :=
  ⟨by norm_num, shadePixel_color_spec (0, 0) (0, 0) (0, 0) 1 2 (by norm_num)⟩

/-- C9: the shader is a pure function of its inputs: two evaluations at equal
pixel coordinates, resolutions and view-state snapshots produce the identical
color, with no dependence on any other state. -/
theorem shadePixel_deterministic (fc₁ fc₂ res₁ res₂ off₁ off₂ : ℚ × ℚ)
    (zoom₁ zoom₂ : ℚ) (m₁ m₂ : ℕ) (hfc : fc₁ = fc₂) (hres : res₁ = res₂)
    (hoff : off₁ = off₂) (hzoom : zoom₁ = zoom₂) (hm : m₁ = m₂) :
    shadePixel fc₁ res₁ off₁ zoom₁ m₁ = shadePixel fc₂ res₂ off₂ zoom₂ m₂ := by
  subst hfc hres hoff hzoom hm
  rfl

/-- Witness for C9 at the default center pixel. -/
theorem shadePixel_deterministic_witness :
    shadePixel ((400 : ℚ), (400 : ℚ)) (800, 800) (-0.5, 0) 200 1500 =
      shadePixel ((400 : ℚ), (400 : ℚ)) (800, 800) (-0.5, 0) 200 1500 :=
  shadePixel_deterministic (400, 400) (400, 400) (800, 800) (800, 800)
    (-0.5, 0) (-0.5, 0) 200 200 1500 1500 rfl rfl rfl rfl rfl

end Fractal
